import Mathlib

/-!
Shallow embedding of the recipe-manager record store (`src/app.py`).

Conventions of the embedding:
* A JSON recipe object is a `Recipe`.  Fields that historically held either a
  newline-delimited string or a structured list are modelled by the sum types
  `PairField` (ingredients / seasonings rows) and `StepsField` (steps rows); a key
  that is absent from the JSON object is the `missing` constructor.
* The Japanese JSON keys are renamed: `手順` becomes `text`, `食材`/`調味料`
  become `name`, `分量` becomes `quantity`.
* Python's `str.strip` is modelled by `py_strip`, `str.lower` by `py_lower`,
  `s.split('\n')` by `py_split_newline`, and the substring test `a in b` by a
  contiguous-subsequence check on the character lists (`str_contains`).
  These are structurally recursive over the character list so that concrete
  instances reduce inside the kernel.
* `uuid.uuid4()` and `pd.Timestamp.now()` are non-deterministic, so the fresh
  id and the timestamp are explicit parameters of the operations that use them.
* Each mutating operation returns the new document together with an `ok` flag
  (the Python return value) and a `saved` flag that records whether
  `save_data()` ran on that control path.
-/

/-- One ingredient / seasoning row: `{"食材"/"調味料": name, "分量": quantity}`. -/
structure Row where
  name : String
  quantity : String
  deriving DecidableEq, Repr

/-- One step row: `{"手順": text}`. -/
structure StepRow where
  text : String
  deriving DecidableEq, Repr

/-- One log entry `{"date": ..., "text": ...}` (newest first in `logs`). -/
structure LogEntry where
  date : String
  text : String
  deriving DecidableEq, Repr

/-- Shape of the `ingredients` / `seasonings` JSON value: legacy plain string,
structured list of rows, or key absent. -/
inductive PairField where
  | str (s : String)
  | rows (l : List Row)
  | missing
  deriving DecidableEq, Repr

/-- Shape of the `steps` JSON value. -/
inductive StepsField where
  | str (s : String)
  | rows (l : List StepRow)
  | missing
  deriving DecidableEq, Repr

/-- A recipe record.  `rating = none` models a JSON object without the
`"rating"` key; `logs` defaults to `[]` exactly as `recipe.get("logs", [])`. -/
structure Recipe where
  id : String
  title : String
  folder : String
  ingredients : PairField
  seasonings : PairField
  steps : StepsField
  rating : Option Nat
  logs : List LogEntry
  deriving DecidableEq, Repr

/-- The root document: `{"folders": [...], "recipes": [...]}`. -/
structure Document where
  folders : List String
  recipes : List Recipe
  deriving DecidableEq, Repr

/-- The constant `DEFAULT_FOLDERS` from `app.py`. -/
def DEFAULT_FOLDERS : List String :=
  ["未分類", "和食", "洋食", "フレンチ", "イタリアン", "中華料理", "鍋", "アジア"]

/-! ### Python string primitives, modelled on character lists -/

/-- Python `s.split(sep)` on character lists for a one-character separator. -/
def split_chars (sep : Char) : List Char → List (List Char)
  | [] => [[]]
  | c :: cs =>
    if c == sep then [] :: split_chars sep cs
    else
      match split_chars sep cs with
      | [] => [[c]]
      | g :: gs => (c :: g) :: gs

/-- Python `s.split('\n')` (it keeps empty pieces, including a trailing one). -/
def py_split_newline (s : String) : List String :=
  (split_chars '\n' s.data).map String.mk

/-- Drop leading whitespace characters. -/
def drop_leading_spaces : List Char → List Char
  | [] => []
  | c :: cs => if c.isWhitespace then drop_leading_spaces cs else c :: cs

/-- Python `s.strip()`: remove leading and trailing whitespace. -/
def py_strip (s : String) : String :=
  ⟨(drop_leading_spaces (drop_leading_spaces s.data.reverse).reverse)⟩

/-- Python `s.lower()`, character by character. -/
def py_lower (s : String) : String :=
  ⟨s.data.map Char.toLower⟩

/-! ### Schema Normalizer (`RecipeManager._migrate_data` and the folder
reconciliation loop of `RecipeManager._load_data`) -/

/-- The comprehension `[{"手順": line.strip()} for line in s.split('\n') if line.strip()]`. -/
def convert_steps (s : String) : List StepRow :=
  ((py_split_newline s).filter (fun line => py_strip line != "")).map
    (fun line => ⟨py_strip line⟩)

/-- The comprehension `[{"食材"/"調味料": line.strip(), "分量": ""} for line in s.split('\n') if line.strip()]`. -/
def convert_name_rows (s : String) : List Row :=
  ((py_split_newline s).filter (fun line => py_strip line != "")).map
    (fun line => ⟨py_strip line, ""⟩)

/-- The branch `if isinstance(recipe.get("steps"), str): recipe["steps"] = ...`. -/
def migrate_steps_field : StepsField → StepsField
  | StepsField.str s => StepsField.rows (convert_steps s)
  | f => f

/-- The ingredients / seasonings branch of `_migrate_data` (string → rows). -/
def migrate_pair_field : PairField → PairField
  | PairField.str s => PairField.rows (convert_name_rows s)
  | f => f

/-- The branch `if "rating" not in recipe: recipe["rating"] = 0`. -/
def migrate_rating : Option Nat → Option Nat
  | none => some 0
  | some n => some n

/-- Per-record body of `RecipeManager._migrate_data`: the four independent
in-place field rewrites. -/
def migrate_recipe (r : Recipe) : Recipe :=
  { r with
    steps := migrate_steps_field r.steps
    ingredients := migrate_pair_field r.ingredients
    seasonings := migrate_pair_field r.seasonings
    rating := migrate_rating r.rating }

/-- The method `RecipeManager._migrate_data` over the whole document. -/
def migrate_data (d : Document) : Document :=
  { d with recipes := d.recipes.map migrate_recipe }

/-- One iteration of the folder loop of `_load_data`:
`if folder not in current_folders: current_folders.append(folder)`. -/
def folder_step (acc : List String) (folder : String) : List String :=
  if folder ∈ acc then acc else acc ++ [folder]

/-- The folder loop of `_load_data`:
`for folder in DEFAULT_FOLDERS: if folder not in current_folders: current_folders.append(folder)`. -/
def add_default_folders (current : List String) : List String :=
  DEFAULT_FOLDERS.foldl folder_step current

/-- The normalization performed by `_load_data` after a successful decode:
record migration followed by folder reconciliation. -/
def load_normalize (d : Document) : Document :=
  let d1 := migrate_data d
  { d1 with folders := add_default_folders d1.folders }

/-! ### Record Repository (`RecipeManager` mutating operations)

Each operation returns `(document, ok, saved)` where `ok` is the Python
return value (`true` for operations with no explicit return) and `saved`
records whether `self.save_data()` ran on that path. -/

/-- The method `RecipeManager.add_folder`.  Its guard `if folder_name and folder_name not in
self.data["folders"]`: Python string truthiness is non-emptiness, `not in`
is exact (case-sensitive) membership. -/
def add_folder (d : Document) (folder_name : String) : Document × Bool × Bool :=
  if folder_name ≠ "" ∧ folder_name ∉ d.folders then
    ({ d with folders := d.folders ++ [folder_name] }, true, true)
  else
    (d, false, false)

/-- The method `RecipeManager.add_recipe`.  The pandas `DataFrame.to_dict('records')`
results are the given row lists; `uuid.uuid4()` is the explicit `new_id`
parameter.  The method always appends and saves. -/
def add_recipe (d : Document) (title folder : String)
    (ingredients_rows seasonings_rows : List Row) (steps_rows : List StepRow)
    (rating : Nat) (new_id : String) : Document × Bool × Bool :=
  let new_recipe : Recipe :=
    { id := new_id
      title := title
      folder := folder
      ingredients := PairField.rows ingredients_rows
      seasonings := PairField.rows seasonings_rows
      steps := StepsField.rows steps_rows
      rating := some rating
      logs := [] }
  ({ d with recipes := d.recipes ++ [new_recipe] }, true, true)

/-- The loop of `RecipeManager.update_recipe`: replace the first record whose
`id` matches, keeping its `logs` (`recipe.get("logs", [])`); `none` when no
record matches. -/
def update_recipe_list (recipe_id title folder : String)
    (ingredients_rows seasonings_rows : List Row) (steps_rows : List StepRow)
    (rating : Nat) : List Recipe → Option (List Recipe)
  | [] => none
  | r :: rs =>
    if r.id = recipe_id then
      some ({ id := recipe_id
              title := title
              folder := folder
              ingredients := PairField.rows ingredients_rows
              seasonings := PairField.rows seasonings_rows
              steps := StepsField.rows steps_rows
              rating := some rating
              logs := r.logs } :: rs)
    else
      (update_recipe_list recipe_id title folder ingredients_rows seasonings_rows
        steps_rows rating rs).map (r :: ·)

/-- The method `RecipeManager.update_recipe`: returns `true` and saves when a record with
the id exists, otherwise returns `false` without touching the data. -/
def update_recipe (d : Document) (recipe_id title folder : String)
    (ingredients_rows seasonings_rows : List Row) (steps_rows : List StepRow)
    (rating : Nat) : Document × Bool × Bool :=
  match update_recipe_list recipe_id title folder ingredients_rows seasonings_rows
      steps_rows rating d.recipes with
  | some rs => ({ d with recipes := rs }, true, true)
  | none => (d, false, false)

/-- The loop of `RecipeManager.add_log`: prepend `{"date": ts, "text": log_text}`
to the first matching record's `logs` (`logs.insert(0, entry)`). -/
def add_log_list (recipe_id log_text ts : String) : List Recipe → Option (List Recipe)
  | [] => none
  | r :: rs =>
    if r.id = recipe_id then
      some ({ r with logs := ⟨ts, log_text⟩ :: r.logs } :: rs)
    else
      (add_log_list recipe_id log_text ts rs).map (r :: ·)

/-- The method `RecipeManager.add_log`; `pd.Timestamp.now().strftime(...)` is the explicit
`ts` parameter. -/
def add_log (d : Document) (recipe_id log_text ts : String) : Document × Bool × Bool :=
  match add_log_list recipe_id log_text ts d.recipes with
  | some rs => ({ d with recipes := rs }, true, true)
  | none => (d, false, false)

/-- The loop of `RecipeManager.update_rating`: point update of the first matching record. -/
def update_rating_list (recipe_id : String) (rating : Nat) : List Recipe → Option (List Recipe)
  | [] => none
  | r :: rs =>
    if r.id = recipe_id then some ({ r with rating := some rating } :: rs)
    else (update_rating_list recipe_id rating rs).map (r :: ·)

/-- The method `RecipeManager.update_rating`. -/
def update_rating (d : Document) (recipe_id : String) (rating : Nat) : Document × Bool × Bool :=
  match update_rating_list recipe_id rating d.recipes with
  | some rs => ({ d with recipes := rs }, true, true)
  | none => (d, false, false)

/-- The method `RecipeManager.delete_recipe`:
`self.data["recipes"] = [r for r in ... if r["id"] != recipe_id]; self.save_data()`.
The save is unconditional, so `saved` is always `true`. -/
def delete_recipe (d : Document) (recipe_id : String) : Document × Bool :=
  ({ d with recipes := d.recipes.filter (fun r => r.id != recipe_id) }, true)

/-! ### Query Engine (the filter / sort block of `main`) -/

/-- Does the first character list begin with the second? -/
def chars_start_with : List Char → List Char → Bool
  | _, [] => true
  | [], _ :: _ => false
  | a :: as, b :: bs => a == b && chars_start_with as bs

/-- Does the second character list occur contiguously inside the first? -/
def chars_have_sub : List Char → List Char → Bool
  | [], needle => chars_start_with [] needle
  | c :: rest, needle => chars_start_with (c :: rest) needle || chars_have_sub rest needle

/-- Python's substring test `needle in hay` on strings. -/
def str_contains (hay needle : String) : Bool :=
  chars_have_sub hay.toList needle.toList

/-- The ingredient text built by the free-text filter in `main`:
`" ".join(item.get("食材","") for item in ing_data)` when `r.get("ingredients", [])`
is a list (an absent key gives the empty join), else `str(ing_data)`. -/
def ing_text : PairField → String
  | PairField.rows l => String.intercalate " " (l.map Row.name)
  | PairField.str s => s
  | PairField.missing => String.intercalate " " ([] : List String)

/-- The per-record free-text test of `main` when `search_query` is truthy:
`query = search_query.lower(); query in r["title"].lower() or query in ing_text.lower()`. -/
def query_match (search_query : String) (r : Recipe) : Bool :=
  let query := py_lower search_query
  let in_title := str_contains (py_lower r.title) query
  let in_ingredients := str_contains (py_lower (ing_text r.ingredients)) query
  in_title || in_ingredients

/-- The flag `is_word_match` of `main`: `True` when `search_query` is falsy (empty),
otherwise `query_match`. -/
def word_match (search_query : String) (r : Recipe) : Bool :=
  if search_query = "" then true else query_match search_query r

/-- The flag `is_folder_match` of `main` (`"すべて"` is the pass-through sentinel). -/
def folder_match (selected_folder : String) (r : Recipe) : Bool :=
  selected_folder == "すべて" || r.folder == selected_folder

/-- The filtering loop of `main`. -/
def filter_recipes (selected_folder search_query : String) (rs : List Recipe) : List Recipe :=
  rs.filter (fun r => folder_match selected_folder r && word_match search_query r)

/-- The sort key of `main`, `x.get("rating", 0)`. -/
def rating_of (r : Recipe) : Nat := r.rating.getD 0

/-- The four options of the `並び替え` selectbox, in order: newest first,
highest rating, lowest rating, oldest first. -/
inductive SortOrder where
  | newestFirst
  | ratingHigh
  | ratingLow
  | oldestFirst
  deriving DecidableEq, Repr

/-- Stable ascending insertion by `rating_of`: the unique stable sort, hence
extensionally equal to Python's stable `list.sort(key=...)`. -/
def insert_by_rating_asc (x : Recipe) : List Recipe → List Recipe
  | [] => [x]
  | y :: ys =>
    if rating_of x ≤ rating_of y then x :: y :: ys else y :: insert_by_rating_asc x ys

/-- The call `filtered_recipes.sort(key=lambda x: x.get("rating", 0))`. -/
def sort_rating_asc : List Recipe → List Recipe
  | [] => []
  | x :: xs => insert_by_rating_asc x (sort_rating_asc xs)

/-- Stable descending insertion by `rating_of` (equal keys keep their original
relative order, as Python's `sort(..., reverse=True)` guarantees). -/
def insert_by_rating_desc (x : Recipe) : List Recipe → List Recipe
  | [] => [x]
  | y :: ys =>
    if rating_of y ≤ rating_of x then x :: y :: ys else y :: insert_by_rating_desc x ys

/-- The call `filtered_recipes.sort(key=lambda x: x.get("rating", 0), reverse=True)`. -/
def sort_rating_desc : List Recipe → List Recipe
  | [] => []
  | x :: xs => insert_by_rating_desc x (sort_rating_desc xs)

/-- The sort dispatch of `main` (`登録が新しい順` reverses, `登録が古い順` is a
no-op, the two rating orders are stable key sorts). -/
def apply_sort : SortOrder → List Recipe → List Recipe
  | SortOrder.newestFirst, l => l.reverse
  | SortOrder.ratingHigh, l => sort_rating_desc l
  | SortOrder.ratingLow, l => sort_rating_asc l
  | SortOrder.oldestFirst, l => l

/-! ### Remote Mirror Sync (`RecipeManager._sync_to_github`)

The PyGithub interaction is modelled by an environment describing what each
remote call would do: `fetch` is the outcome of `repo.get_contents`,
`update_result` / `create_result` the outcomes of `repo.update_file` /
`repo.create_file` when issued.  A `GithubException` carries its HTTP status;
`otherErr` is any non-`GithubException` exception (network failure, etc.).
The function returns the remote calls actually issued, in order, and how the
method ends: normally, with the `st.warning` of the outer handler, or
silently swallowing a `GithubException` in the inner handler. -/

/-- Outcome of `repo.get_contents(path, ref=branch)`. -/
inductive FetchResult where
  | found (sha : String)
  | ghErr (status : Nat)
  | otherErr
  deriving DecidableEq, Repr

/-- Outcome of an issued `update_file` / `create_file` call. -/
inductive CallResult where
  | ok
  | ghErr (status : Nat)
  | otherErr
  deriving DecidableEq, Repr

/-- Behaviour of the remote store during one sync. -/
structure RemoteEnv where
  fetch : FetchResult
  update_result : CallResult
  create_result : CallResult
  deriving DecidableEq, Repr

/-- A write call issued to the remote store. -/
inductive RemoteCall where
  | update (sha : String)
  | create
  deriving DecidableEq, Repr

/-- How `_sync_to_github` terminates. -/
inductive SyncOutcome where
  | ok
  | warned
  | silent
  deriving DecidableEq, Repr

/-- The method `RecipeManager._sync_to_github`: inner `try: get_contents; update_file
except GithubException as e: if e.status == 404: create_file`, all inside an
outer `except Exception: st.warning(...)`. -/
def sync_to_github (env : RemoteEnv) : List RemoteCall × SyncOutcome :=
  match env.fetch with
  | FetchResult.found sha =>
    match env.update_result with
    | CallResult.ok => ([RemoteCall.update sha], SyncOutcome.ok)
    | CallResult.ghErr status =>
      if status = 404 then
        match env.create_result with
        | CallResult.ok => ([RemoteCall.update sha, RemoteCall.create], SyncOutcome.ok)
        | _ => ([RemoteCall.update sha, RemoteCall.create], SyncOutcome.warned)
      else
        ([RemoteCall.update sha], SyncOutcome.silent)
    | CallResult.otherErr => ([RemoteCall.update sha], SyncOutcome.warned)
  | FetchResult.ghErr status =>
    if status = 404 then
      match env.create_result with
      | CallResult.ok => ([RemoteCall.create], SyncOutcome.ok)
      | _ => ([RemoteCall.create], SyncOutcome.warned)
    else
      ([], SyncOutcome.silent)
  | FetchResult.otherErr => ([], SyncOutcome.warned)

/-- The method `RecipeManager.save_data`: the local write of `self.data` commits first,
then the GitHub sync runs; the sync never touches the document. -/
def save_data (d : Document) (env : RemoteEnv) : Document × List RemoteCall × SyncOutcome :=
  (d, sync_to_github env)

/-! ### Spec-side readings used by refinement statements -/

/-- Spec-side reading of the steps conversion: one `{text: line}` entry per
non-empty trimmed line, in line order. -/
def spec_step_rows (s : String) : List StepRow :=
  (((py_split_newline s).map py_strip).filter (fun l => l != "")).map StepRow.mk

/-- Spec-side reading of the ingredients / seasonings conversion: one
`{name: line, quantity: ""}` pair per non-empty trimmed line, in line order. -/
def spec_name_rows (s : String) : List Row :=
  (((py_split_newline s).map py_strip).filter (fun l => l != "")).map
    (fun n => (⟨n, ""⟩ : Row))

/-- Spec-side reading of the free-text search corpus for components: the
space-joined concatenation of the component name values, a legacy plain-string
field being used directly. -/
def spec_component_text : PairField → String
  | PairField.rows l => String.intercalate " " (l.map Row.name)
  | PairField.str s => s
  | PairField.missing => ""

/-- Does a structured ingredients / seasonings field hold a row whose name is
empty? -/
def has_empty_name_row : PairField → Bool
  | PairField.rows l => l.any (fun row => row.name == "")
  | _ => false

/-- The caller-side cleaning performed by the form-submission code in `main`:
`df[df["食材"].notna() & (df["食材"] != "")]` keeps only rows with a present,
non-empty name. -/
def clean_rows (l : List Row) : List Row :=
  l.filter (fun row => row.name != "")

/-! ## Theorems -/

section Helpers

/-- Filtering on a transformed value then mapping over it is the same as
mapping the transform first. -/
theorem filter_comp_map {α β γ : Type} (g : α → β) (p : β → Bool) (h : β → γ)
    (xs : List α) :
    (xs.filter (fun x => p (g x))).map (fun x => h (g x)) =
      ((xs.map g).filter p).map h := by
  induction xs with
  | nil => rfl
  | cons x xs ih =>
    simp only [List.map_cons, List.filter_cons]
    cases hp : p (g x) <;> simp [hp, ih]

theorem convert_steps_eq_spec (s : String) : convert_steps s = spec_step_rows s :=
  filter_comp_map py_strip (fun l => l != "") StepRow.mk (py_split_newline s)

theorem convert_name_rows_eq_spec (s : String) : convert_name_rows s = spec_name_rows s :=
  filter_comp_map py_strip (fun l => l != "") (fun n => (⟨n, ""⟩ : Row))
    (py_split_newline s)

theorem mem_spec_step_rows_ne_empty {s : String} {row : StepRow}
    (h : row ∈ spec_step_rows s) : row.text ≠ "" := by
  simp only [spec_step_rows, List.mem_map, List.mem_filter] at h
  obtain ⟨l, ⟨-, hl⟩, rfl⟩ := h
  simpa using hl

theorem mem_spec_name_rows {s : String} {row : Row}
    (h : row ∈ spec_name_rows s) : row.name ≠ "" ∧ row.quantity = "" := by
  simp only [spec_name_rows, List.mem_map, List.mem_filter] at h
  obtain ⟨l, ⟨-, hl⟩, rfl⟩ := h
  simpa using hl

end Helpers

/-- C1: a record whose `steps` field is a single string is rewritten to the
ordered sequence of one `{text: line}` entry per non-empty trimmed line of the
string (line order preserved, no empty entries); for `steps = "a\n\nb\n"` this
is exactly the two entries `"a"` then `"b"`; a string-valued ingredients or
seasonings field is rewritten analogously into `{name: line, quantity: ""}`
pairs. -/
theorem C1_string_field_normalization :
    (∀ (r : Recipe) (s : String), r.steps = StepsField.str s →
        (migrate_recipe r).steps = StepsField.rows (spec_step_rows s)
          ∧ ∀ row ∈ spec_step_rows s, row.text ≠ "")
  ∧ spec_step_rows "a\n\nb\n" = [⟨"a"⟩, ⟨"b"⟩]
  ∧ (∀ (r : Recipe) (s : String), r.ingredients = PairField.str s →
        (migrate_recipe r).ingredients = PairField.rows (spec_name_rows s)
          ∧ ∀ row ∈ spec_name_rows s, row.name ≠ "" ∧ row.quantity = "")
  ∧ (∀ (r : Recipe) (s : String), r.seasonings = PairField.str s →
        (migrate_recipe r).seasonings = PairField.rows (spec_name_rows s)) := by
  refine ⟨?_, by decide, ?_, ?_⟩
  · intro r s hs
    refine ⟨?_, fun row hrow => mem_spec_step_rows_ne_empty hrow⟩
    simp [migrate_recipe, hs, migrate_steps_field, convert_steps_eq_spec]
  · intro r s hs
    refine ⟨?_, fun row hrow => mem_spec_name_rows hrow⟩
    simp [migrate_recipe, hs, migrate_pair_field, convert_name_rows_eq_spec]
  · intro r s hs
    simp [migrate_recipe, hs, migrate_pair_field, convert_name_rows_eq_spec]

/-- Witness for C1 at the spec's example inputs. -/
theorem C1_string_field_normalization_witness :
    (migrate_recipe
        { id := "1", title := "t", folder := "f",
          ingredients := PairField.str " 豚肉 \n\nねぎ",
          seasonings := PairField.str "塩",
          steps := StepsField.str "a\n\nb\n",
          rating := none, logs := [] }).steps =
      StepsField.rows (spec_step_rows "a\n\nb\n") ∧
    spec_step_rows "a\n\nb\n" = [⟨"a"⟩, ⟨"b"⟩] ∧
    (migrate_recipe
        { id := "1", title := "t", folder := "f",
          ingredients := PairField.str " 豚肉 \n\nねぎ",
          seasonings := PairField.str "塩",
          steps := StepsField.str "a\n\nb\n",
          rating := none, logs := [] }).ingredients =
      PairField.rows [⟨"豚肉", ""⟩, ⟨"ねぎ", ""⟩] :=
  ⟨(C1_string_field_normalization.1 _ "a\n\nb\n" rfl).1,
   C1_string_field_normalization.2.1,
   by
    rw [(C1_string_field_normalization.2.2.1 _ " 豚肉 \n\nねぎ" rfl).1]
    decide⟩

section NormalizerIdem

theorem migrate_steps_field_idem (f : StepsField) :
    migrate_steps_field (migrate_steps_field f) = migrate_steps_field f := by
  cases f <;> rfl

theorem migrate_pair_field_idem (f : PairField) :
    migrate_pair_field (migrate_pair_field f) = migrate_pair_field f := by
  cases f <;> rfl

theorem migrate_rating_idem (o : Option Nat) :
    migrate_rating (migrate_rating o) = migrate_rating o := by
  cases o <;> rfl

theorem migrate_recipe_idem (r : Recipe) :
    migrate_recipe (migrate_recipe r) = migrate_recipe r := by
  simp [migrate_recipe, migrate_steps_field_idem, migrate_pair_field_idem,
    migrate_rating_idem]

/-- Anything already in the accumulator survives the folder loop. -/
theorem folder_fold_mem_mono (ds : List String) (acc : List String) (a : String)
    (h : a ∈ acc) : a ∈ ds.foldl folder_step acc := by
  induction ds generalizing acc with
  | nil => exact h
  | cons f ds ih =>
    simp only [List.foldl_cons, folder_step]
    by_cases hf : f ∈ acc
    · rw [if_pos hf]; exact ih acc h
    · rw [if_neg hf]; exact ih _ (List.mem_append_left _ h)

/-- Every processed folder is in the loop's result. -/
theorem folder_fold_mem_self (ds : List String) (acc : List String) (a : String)
    (h : a ∈ ds) : a ∈ ds.foldl folder_step acc := by
  induction ds generalizing acc with
  | nil => cases h
  | cons f ds ih =>
    simp only [List.foldl_cons, folder_step]
    rcases List.mem_cons.mp h with rfl | hmem
    · by_cases hf : a ∈ acc
      · rw [if_pos hf]; exact folder_fold_mem_mono ds acc a hf
      · rw [if_neg hf]
        exact folder_fold_mem_mono ds _ a (List.mem_append_right _ (List.mem_singleton.mpr rfl))
    · by_cases hf : f ∈ acc
      · rw [if_pos hf]; exact ih acc hmem
      · rw [if_neg hf]; exact ih _ hmem

/-- The folder loop is the identity when every processed folder is already
present. -/
theorem folder_fold_fixed (ds : List String) (acc : List String)
    (h : ∀ f ∈ ds, f ∈ acc) : ds.foldl folder_step acc = acc := by
  induction ds with
  | nil => rfl
  | cons f ds ih =>
    simp only [List.foldl_cons, folder_step]
    rw [if_pos (h f (List.mem_cons_self f ds))]
    exact ih fun g hg => h g (List.mem_cons_of_mem f hg)

theorem add_default_folders_idem (current : List String) :
    add_default_folders (add_default_folders current) = add_default_folders current :=
  folder_fold_fixed _ _ fun _ hf => folder_fold_mem_self _ _ _ hf

/-- The loop never appends a folder that is already present. -/
theorem folder_fold_count (ds : List String) (acc : List String) (a : String)
    (h : a ∈ acc) : (ds.foldl folder_step acc).count a = acc.count a := by
  induction ds generalizing acc with
  | nil => rfl
  | cons f ds ih =>
    simp only [List.foldl_cons, folder_step]
    by_cases hf : f ∈ acc
    · rw [if_pos hf]; exact ih acc h
    · rw [if_neg hf, ih _ (List.mem_append_left _ h)]
      have hne : a ≠ f := fun he => hf (he ▸ h)
      simp [List.count_append, List.count_singleton, hne]

end NormalizerIdem

/-- C2: the Schema Normalizer (per-record migration plus folder
reconciliation) is idempotent; already-structured fields are untouched, an
already-present rating is not overwritten, and an already-present folder is
not appended again. -/
theorem C2_normalizer_idempotent :
    (∀ d : Document, load_normalize (load_normalize d) = load_normalize d)
  ∧ (∀ l : List StepRow, migrate_steps_field (StepsField.rows l) = StepsField.rows l)
  ∧ (∀ l : List Row, migrate_pair_field (PairField.rows l) = PairField.rows l)
  ∧ (∀ n : Nat, migrate_rating (some n) = some n)
  ∧ (∀ (current : List String) (f : String), f ∈ current →
        (add_default_folders current).count f = current.count f) := by
  refine ⟨?_, fun l => rfl, fun l => rfl, fun n => rfl,
    fun current f hf => folder_fold_count _ _ _ hf⟩
  intro d
  simp [load_normalize, migrate_data, List.map_map, add_default_folders_idem,
    Function.comp_def, migrate_recipe_idem]

/-- Witness for C2 on a concrete legacy document. -/
theorem C2_normalizer_idempotent_witness :
    ("和食" : String) ∈ (["未分類", "和食"] : List String) ∧
    (add_default_folders ["未分類", "和食"]).count "和食" =
      (["未分類", "和食"] : List String).count "和食" ∧
    load_normalize
        (load_normalize
          { folders := ["未分類"],
            recipes := [{ id := "1", title := "t", folder := "未分類",
                          ingredients := PairField.str "a\nb",
                          seasonings := PairField.missing,
                          steps := StepsField.str "a\n\nb\n",
                          rating := none, logs := [] }] }) =
      load_normalize
        { folders := ["未分類"],
          recipes := [{ id := "1", title := "t", folder := "未分類",
                        ingredients := PairField.str "a\nb",
                        seasonings := PairField.missing,
                        steps := StepsField.str "a\n\nb\n",
                        rating := none, logs := [] }] } :=
  ⟨by decide,
   C2_normalizer_idempotent.2.2.2.2 ["未分類", "和食"] "和食" (by decide),
   C2_normalizer_idempotent.1 _⟩

section FolderUnion

/-- The folder loop appends exactly the processed names that are absent, in
processing order, when the processed list has no duplicates. -/
theorem folder_fold_append (ds : List String) (current : List String)
    (hnd : ds.Nodup) :
    ds.foldl folder_step current =
      current ++ ds.filter (fun f => decide (f ∉ current)) := by
  induction ds generalizing current with
  | nil => simp
  | cons f ds ih =>
    rcases List.nodup_cons.mp hnd with ⟨hf_ds, hnd_ds⟩
    simp only [List.foldl_cons, folder_step, List.filter_cons]
    by_cases hf : f ∈ current
    · rw [if_pos hf, if_neg (by simp [hf])]
      exact ih current hnd_ds
    · rw [if_neg hf, if_pos (by simp [hf])]
      rw [ih (current ++ [f]) hnd_ds]
      rw [List.append_assoc]
      congr 1
      rw [List.singleton_append]
      congr 1
      apply List.filter_congr
      intro g hg
      have hgf : g ≠ f := fun he => hf_ds (he ▸ hg)
      simp [List.mem_append, hgf]

end FolderUnion

/-- C3: loading reconciles the folder list to the document's existing folders
in their original order followed by exactly the absent built-in defaults in
canonical order; no duplicate is introduced (and hence no existing folder is
removed). -/
theorem C3_folder_reconciliation :
    (∀ current : List String,
        add_default_folders current =
          current ++ DEFAULT_FOLDERS.filter (fun f => decide (f ∉ current)))
  ∧ (∀ current : List String, current.Nodup → (add_default_folders current).Nodup) := by
  have hnd : DEFAULT_FOLDERS.Nodup := by decide
  constructor
  · intro current
    exact folder_fold_append DEFAULT_FOLDERS current hnd
  · intro current hcur
    show (DEFAULT_FOLDERS.foldl folder_step current).Nodup
    rw [folder_fold_append DEFAULT_FOLDERS current hnd]
    refine List.Nodup.append hcur (hnd.filter _) ?_
    intro a ha hfa
    rcases List.mem_filter.mp hfa with ⟨-, hdec⟩
    exact (of_decide_eq_true hdec) ha

/-- Witness for C3 at the spec's example `["未分類","和食"]`. -/
theorem C3_folder_reconciliation_witness :
    add_default_folders ["未分類", "和食"] =
      ["未分類", "和食"] ++
        DEFAULT_FOLDERS.filter (fun f => decide (f ∉ (["未分類", "和食"] : List String))) ∧
    (["未分類", "和食"] : List String).Nodup ∧
    (add_default_folders ["未分類", "和食"]).Nodup :=
  ⟨C3_folder_reconciliation.1 ["未分類", "和食"], by decide,
   C3_folder_reconciliation.2 ["未分類", "和食"] (by decide)⟩

section UpdateRepo

/-- The scan `update_recipe_list` finds nothing when no record has the id. -/
theorem update_recipe_list_none (recipe_id title folder : String)
    (ing sea : List Row) (stp : List StepRow) (rating : Nat) (l : List Recipe)
    (h : ∀ r ∈ l, r.id ≠ recipe_id) :
    update_recipe_list recipe_id title folder ing sea stp rating l = none := by
  induction l with
  | nil => rfl
  | cons r rs ih =>
    simp only [update_recipe_list]
    rw [if_neg (h r (List.mem_cons_self r rs))]
    rw [ih fun r' hr' => h r' (List.mem_cons_of_mem r hr')]
    rfl

/-- The scan `update_recipe_list` replaces the first record with the id, carrying its
logs, and leaves everything else in place. -/
theorem update_recipe_list_found (recipe_id title folder : String)
    (ing sea : List Row) (stp : List StepRow) (rating : Nat)
    (pre post : List Recipe) (r : Recipe)
    (hid : r.id = recipe_id) (hpre : ∀ r' ∈ pre, r'.id ≠ recipe_id) :
    update_recipe_list recipe_id title folder ing sea stp rating (pre ++ r :: post) =
      some (pre ++
        { id := recipe_id, title := title, folder := folder,
          ingredients := PairField.rows ing, seasonings := PairField.rows sea,
          steps := StepsField.rows stp, rating := some rating,
          logs := r.logs } :: post) := by
  induction pre with
  | nil =>
    simp only [List.nil_append, update_recipe_list]
    rw [if_pos hid]
  | cons p pre ih =>
    simp only [List.cons_append, update_recipe_list]
    rw [if_neg (hpre p (List.mem_cons_self p pre))]
    simp only [List.append_eq]
    rw [ih fun r' hr' => hpre r' (List.mem_cons_of_mem p hr')]
    rfl

/-- The scan `add_log_list` prepends the new entry to the first record with the id. -/
theorem add_log_list_found (recipe_id log_text ts : String)
    (pre post : List Recipe) (r : Recipe)
    (hid : r.id = recipe_id) (hpre : ∀ r' ∈ pre, r'.id ≠ recipe_id) :
    add_log_list recipe_id log_text ts (pre ++ r :: post) =
      some (pre ++ { r with logs := ⟨ts, log_text⟩ :: r.logs } :: post) := by
  induction pre with
  | nil =>
    simp only [List.nil_append, add_log_list]
    rw [if_pos hid]
  | cons p pre ih =>
    simp only [List.cons_append, add_log_list]
    rw [if_neg (hpre p (List.mem_cons_self p pre))]
    simp only [List.append_eq]
    rw [ih fun r' hr' => hpre r' (List.mem_cons_of_mem p hr')]
    rfl

end UpdateRepo

/-- C4: `update_recipe` returns `false` and changes nothing (no save) when no
record has the id; when a record exists it replaces every field except `id`
and `logs` with the supplied values, carries the logs over unchanged, saves,
and returns `true` — in particular an `add_log` followed by an
`update_recipe` leaves the previously prepended log entry intact. -/
theorem C4_update_recipe :
    (∀ (d : Document) (recipe_id title folder : String) (ing sea : List Row)
        (stp : List StepRow) (rating : Nat),
        (∀ r ∈ d.recipes, r.id ≠ recipe_id) →
        update_recipe d recipe_id title folder ing sea stp rating = (d, false, false))
  ∧ (∀ (folders : List String) (pre post : List Recipe) (r : Recipe)
        (recipe_id title folder : String) (ing sea : List Row)
        (stp : List StepRow) (rating : Nat),
        r.id = recipe_id → (∀ r' ∈ pre, r'.id ≠ recipe_id) →
        update_recipe ⟨folders, pre ++ r :: post⟩ recipe_id title folder ing sea stp
            rating =
          (⟨folders, pre ++
              { id := recipe_id, title := title, folder := folder,
                ingredients := PairField.rows ing, seasonings := PairField.rows sea,
                steps := StepsField.rows stp, rating := some rating,
                logs := r.logs } :: post⟩, true, true))
  ∧ (∀ (folders : List String) (pre post : List Recipe) (r : Recipe)
        (recipe_id log_text ts title folder : String) (ing sea : List Row)
        (stp : List StepRow) (rating : Nat),
        r.id = recipe_id → (∀ r' ∈ pre, r'.id ≠ recipe_id) →
        update_recipe (add_log ⟨folders, pre ++ r :: post⟩ recipe_id log_text ts).1
            recipe_id title folder ing sea stp rating =
          (⟨folders, pre ++
              { id := recipe_id, title := title, folder := folder,
                ingredients := PairField.rows ing, seasonings := PairField.rows sea,
                steps := StepsField.rows stp, rating := some rating,
                logs := ⟨ts, log_text⟩ :: r.logs } :: post⟩, true, true)) := by
  refine ⟨?_, ?_, ?_⟩
  · intro d recipe_id title folder ing sea stp rating h
    simp only [update_recipe]
    rw [update_recipe_list_none recipe_id title folder ing sea stp rating d.recipes h]
  · intro folders pre post r recipe_id title folder ing sea stp rating hid hpre
    simp only [update_recipe]
    rw [update_recipe_list_found recipe_id title folder ing sea stp rating pre post r
      hid hpre]
  · intro folders pre post r recipe_id log_text ts title folder ing sea stp rating
      hid hpre
    simp only [add_log]
    rw [add_log_list_found recipe_id log_text ts pre post r hid hpre]
    simp only [update_recipe]
    rw [update_recipe_list_found recipe_id title folder ing sea stp rating pre post
      { r with logs := ⟨ts, log_text⟩ :: r.logs } hid hpre]

/-- Witness for C4 on a concrete two-record store. -/
theorem C4_update_recipe_witness :
    update_recipe { folders := ["和食"], recipes := [] } "missing" "t" "和食" [] [] [] 0 =
      ({ folders := ["和食"], recipes := [] }, false, false) ∧
    update_recipe
        ⟨["和食"],
          [] ++ { id := "id-1", title := "old", folder := "和食",
                  ingredients := PairField.rows [⟨"豆腐", "100g"⟩],
                  seasonings := PairField.rows [],
                  steps := StepsField.rows [⟨"煮る"⟩], rating := some 2,
                  logs := [⟨"2024-01-01 10:00", "memo"⟩] } :: []⟩
        "id-1" "new" "洋食" [] [] [⟨"焼く"⟩] 5 =
      (⟨["和食"],
          [] ++ { id := "id-1", title := "new", folder := "洋食",
                  ingredients := PairField.rows [], seasonings := PairField.rows [],
                  steps := StepsField.rows [⟨"焼く"⟩], rating := some 5,
                  logs := [⟨"2024-01-01 10:00", "memo"⟩] } :: []⟩, true, true) ∧
    update_recipe
        (add_log
          ⟨["和食"],
            [] ++ { id := "id-1", title := "old", folder := "和食",
                    ingredients := PairField.rows [], seasonings := PairField.rows [],
                    steps := StepsField.rows [⟨"煮る"⟩], rating := some 2,
                    logs := [⟨"2024-01-01 10:00", "memo"⟩] } :: []⟩
          "id-1" "塩を減らす" "2024-02-02 18:00").1
        "id-1" "new" "和食" [] [] [⟨"煮る"⟩] 4 =
      (⟨["和食"],
          [] ++ { id := "id-1", title := "new", folder := "和食",
                  ingredients := PairField.rows [], seasonings := PairField.rows [],
                  steps := StepsField.rows [⟨"煮る"⟩], rating := some 4,
                  logs := [⟨"2024-02-02 18:00", "塩を減らす"⟩,
                           ⟨"2024-01-01 10:00", "memo"⟩] } :: []⟩, true, true) :=
  ⟨C4_update_recipe.1 _ "missing" "t" "和食" [] [] [] 0 (by decide),
   C4_update_recipe.2.1 ["和食"] [] [] _ "id-1" "new" "洋食" [] [] [⟨"焼く"⟩] 5 rfl
     (by simp),
   C4_update_recipe.2.2 ["和食"] [] [] _ "id-1" "塩を減らす" "2024-02-02 18:00" "new"
     "和食" [] [] [⟨"煮る"⟩] 4 rfl (by simp)⟩

/-- C5 counterexample: a permission failure of the fetch step — a
`GithubException` with status 403 — is caught by the inner handler and
swallowed with no warning at all, while the claim says every such failure is
reported as a non-fatal warning. -/
theorem C5_sync_counterexample :
    sync_to_github ⟨FetchResult.ghErr 403, CallResult.ok, CallResult.ok⟩ =
      ([], SyncOutcome.silent) ∧
    (sync_to_github ⟨FetchResult.ghErr 403, CallResult.ok, CallResult.ok⟩).2 ≠
      SyncOutcome.warned := by
  decide

/-- C5 (amended): on a not-found fetch the sync issues exactly one create call
and never an update; on a fetch that returns a token the first issued call is
an update with exactly that token; every failure is caught (the sync always
terminates in `ok`, `warned` or `silent`, never re-raising) and the local
document is never affected — but only non-`GithubException` failures and
failures of the create call are reported as a warning, while a
`GithubException` with status other than 404 from the fetch or update call is
swallowed silently. -/
theorem C5_sync_amended :
    (∀ env : RemoteEnv, env.fetch = FetchResult.ghErr 404 →
        (sync_to_github env).1 = [RemoteCall.create])
  ∧ (∀ (env : RemoteEnv) (sha : String), env.fetch = FetchResult.found sha →
        (sync_to_github env).1.head? = some (RemoteCall.update sha))
  ∧ (∀ env : RemoteEnv, env.fetch = FetchResult.otherErr →
        sync_to_github env = ([], SyncOutcome.warned))
  ∧ (∀ (env : RemoteEnv) (sha : String), env.fetch = FetchResult.found sha →
        env.update_result = CallResult.otherErr →
        (sync_to_github env).2 = SyncOutcome.warned)
  ∧ (∀ (env : RemoteEnv) (status : Nat), env.fetch = FetchResult.ghErr status →
        status ≠ 404 → sync_to_github env = ([], SyncOutcome.silent))
  ∧ (∀ (env : RemoteEnv) (sha : String) (status : Nat),
        env.fetch = FetchResult.found sha →
        env.update_result = CallResult.ghErr status → status ≠ 404 →
        sync_to_github env = ([RemoteCall.update sha], SyncOutcome.silent))
  ∧ (∀ env : RemoteEnv, env.fetch = FetchResult.ghErr 404 →
        env.create_result ≠ CallResult.ok →
        sync_to_github env = ([RemoteCall.create], SyncOutcome.warned))
  ∧ (∀ (env : RemoteEnv) (sha : String), env.fetch = FetchResult.found sha →
        env.update_result = CallResult.ghErr 404 →
        env.create_result ≠ CallResult.ok →
        sync_to_github env =
          ([RemoteCall.update sha, RemoteCall.create], SyncOutcome.warned))
  ∧ (∀ (d : Document) (env : RemoteEnv), (save_data d env).1 = d) := by
  refine ⟨?_, ?_, ?_, ?_, ?_, ?_, ?_, ?_, fun d env => rfl⟩
  · intro env h
    simp only [sync_to_github, h]
    cases env.create_result <;> rfl
  · intro env sha h
    obtain ⟨fetch, ur, cr⟩ := env
    subst h
    cases ur with
    | ok => rfl
    | ghErr status =>
      by_cases h404 : status = 404
      · subst h404
        cases cr <;> rfl
      · simp only [sync_to_github]
        rw [if_neg h404]
        rfl
    | otherErr => rfl
  · intro env h
    simp only [sync_to_github, h]
  · intro env sha hf hu
    simp only [sync_to_github, hf, hu]
  · intro env status hf h404
    simp only [sync_to_github, hf]
    rw [if_neg h404]
  · intro env sha status hf hu h404
    simp only [sync_to_github, hf, hu]
    rw [if_neg h404]
  · intro env hf hc
    obtain ⟨fetch, ur, cr⟩ := env
    subst hf
    cases cr with
    | ok => exact absurd rfl hc
    | ghErr status => rfl
    | otherErr => rfl
  · intro env sha hf hu hc
    obtain ⟨fetch, ur, cr⟩ := env
    subst hf
    subst hu
    cases cr with
    | ok => exact absurd rfl hc
    | ghErr status => rfl
    | otherErr => rfl

/-- Witness for C5 (amended) on concrete remote behaviours. -/
theorem C5_sync_amended_witness :
    (sync_to_github ⟨FetchResult.ghErr 404, CallResult.ok, CallResult.ok⟩).1 =
      [RemoteCall.create] ∧
    (sync_to_github ⟨FetchResult.found "abc123", CallResult.ok, CallResult.ok⟩).1.head? =
      some (RemoteCall.update "abc123") ∧
    sync_to_github ⟨FetchResult.otherErr, CallResult.ok, CallResult.ok⟩ =
      ([], SyncOutcome.warned) ∧
    sync_to_github ⟨FetchResult.found "abc123", CallResult.ghErr 409, CallResult.ok⟩ =
      ([RemoteCall.update "abc123"], SyncOutcome.silent) ∧
    sync_to_github ⟨FetchResult.ghErr 404, CallResult.ok, CallResult.otherErr⟩ =
      ([RemoteCall.create], SyncOutcome.warned) ∧
    sync_to_github
        ⟨FetchResult.found "abc123", CallResult.ghErr 404, CallResult.ghErr 422⟩ =
      ([RemoteCall.update "abc123", RemoteCall.create], SyncOutcome.warned) ∧
    (save_data { folders := ["和食"], recipes := [] }
        ⟨FetchResult.ghErr 500, CallResult.ok, CallResult.ok⟩).1 =
      { folders := ["和食"], recipes := [] } :=
  ⟨C5_sync_amended.1 _ rfl,
   C5_sync_amended.2.1 _ "abc123" rfl,
   C5_sync_amended.2.2.1 _ rfl,
   C5_sync_amended.2.2.2.2.2.1 _ "abc123" 409 rfl rfl (by decide),
   C5_sync_amended.2.2.2.2.2.2.1 _ rfl (by decide),
   C5_sync_amended.2.2.2.2.2.2.2.1 _ "abc123" rfl rfl (by decide),
   C5_sync_amended.2.2.2.2.2.2.2.2 _ _⟩

/-- C6: with a non-empty query, the free-text filter accepts a record exactly
when the lowered query occurs in the lowered title or in the lowered
space-joined component names (a legacy plain-string field being searched
directly) — and the `steps` field never influences the outcome. -/
theorem C6_query_filter :
    (∀ (q : String) (r : Recipe), q ≠ "" →
        (word_match q r = true ↔
          (str_contains (py_lower r.title) (py_lower q) = true ∨
           str_contains (py_lower (spec_component_text r.ingredients)) (py_lower q)
             = true)))
  ∧ (∀ (q : String) (r : Recipe) (stp : StepsField),
        word_match q { r with steps := stp } = word_match q r) := by
  constructor
  · intro q r hq
    have htext : ing_text r.ingredients = spec_component_text r.ingredients := by
      cases r.ingredients <;> rfl
    simp only [word_match, if_neg hq, query_match, htext, Bool.or_eq_true]
  · intro q r stp
    rfl

/-- Witness for C6: the spec's example `豚肉` ingredient matches, and moving
the text into `steps` does not. -/
theorem C6_query_filter_witness :
    ("豚肉" : String) ≠ "" ∧
    (word_match "豚肉"
        { id := "1", title := "カレー", folder := "和食",
          ingredients := PairField.rows [⟨"豚肉", "200g"⟩],
          seasonings := PairField.rows [], steps := StepsField.rows [],
          rating := some 0, logs := [] } = true ↔
      (str_contains (py_lower "カレー") (py_lower "豚肉") = true ∨
       str_contains
          (py_lower (spec_component_text (PairField.rows [⟨"豚肉", "200g"⟩])))
          (py_lower "豚肉") = true)) ∧
    word_match "豚肉"
        { id := "2", title := "カレー", folder := "和食",
          ingredients := PairField.rows [], seasonings := PairField.rows [],
          steps := StepsField.rows [⟨"豚肉を焼く"⟩], rating := some 0, logs := [] } =
      word_match "豚肉"
        { id := "2", title := "カレー", folder := "和食",
          ingredients := PairField.rows [], seasonings := PairField.rows [],
          steps := StepsField.missing, rating := some 0, logs := [] } :=
  ⟨by decide,
   C6_query_filter.1 "豚肉" _ (by decide),
   C6_query_filter.2 "豚肉"
     { id := "2", title := "カレー", folder := "和食",
       ingredients := PairField.rows [], seasonings := PairField.rows [],
       steps := StepsField.missing, rating := some 0, logs := [] }
     (StepsField.rows [⟨"豚肉を焼く"⟩])⟩

section SortStability

/-- Ascending insertion leaves the records of any fixed rating in their
original relative order. -/
theorem insert_asc_filter_eq (v : Nat) (x : Recipe) (l : List Recipe) :
    (insert_by_rating_asc x l).filter (fun r => decide (rating_of r = v)) =
      (x :: l).filter (fun r => decide (rating_of r = v)) := by
  induction l with
  | nil => rfl
  | cons y ys ih =>
    simp only [insert_by_rating_asc]
    by_cases hxy : rating_of x ≤ rating_of y
    · rw [if_pos hxy]
    · rw [if_neg hxy]
      by_cases hx : rating_of x = v
      · have hy : ¬ rating_of y = v := by omega
        simp only [List.filter_cons, hx, hy, decide_eq_true_eq, if_neg, ih,
          decide_True, if_pos, decide_False]
        simp [hy]
      · simp only [List.filter_cons]
        by_cases hy : rating_of y = v <;> simp [hx, hy, ih, List.filter_cons]

/-- Descending insertion leaves the records of any fixed rating in their
original relative order. -/
theorem insert_desc_filter_eq (v : Nat) (x : Recipe) (l : List Recipe) :
    (insert_by_rating_desc x l).filter (fun r => decide (rating_of r = v)) =
      (x :: l).filter (fun r => decide (rating_of r = v)) := by
  induction l with
  | nil => rfl
  | cons y ys ih =>
    simp only [insert_by_rating_desc]
    by_cases hxy : rating_of y ≤ rating_of x
    · rw [if_pos hxy]
    · rw [if_neg hxy]
      by_cases hx : rating_of x = v
      · have hy : ¬ rating_of y = v := by omega
        simp only [List.filter_cons]
        simp [hx, hy, ih]
      · simp only [List.filter_cons]
        by_cases hy : rating_of y = v <;> simp [hx, hy, ih, List.filter_cons]

theorem sort_rating_asc_stable (v : Nat) (l : List Recipe) :
    (sort_rating_asc l).filter (fun r => decide (rating_of r = v)) =
      l.filter (fun r => decide (rating_of r = v)) := by
  induction l with
  | nil => rfl
  | cons x xs ih =>
    simp only [sort_rating_asc]
    rw [insert_asc_filter_eq]
    simp only [List.filter_cons, ih]

theorem sort_rating_desc_stable (v : Nat) (l : List Recipe) :
    (sort_rating_desc l).filter (fun r => decide (rating_of r = v)) =
      l.filter (fun r => decide (rating_of r = v)) := by
  induction l with
  | nil => rfl
  | cons x xs ih =>
    simp only [sort_rating_desc]
    rw [insert_desc_filter_eq]
    simp only [List.filter_cons, ih]

theorem insert_asc_mem (x : Recipe) (l : List Recipe) (b : Recipe) :
    b ∈ insert_by_rating_asc x l ↔ b ∈ x :: l := by
  induction l with
  | nil => simp [insert_by_rating_asc]
  | cons y ys ih =>
    simp only [insert_by_rating_asc]
    by_cases hxy : rating_of x ≤ rating_of y
    · rw [if_pos hxy]
    · rw [if_neg hxy]
      simp only [List.mem_cons, ih]
      tauto

theorem insert_desc_mem (x : Recipe) (l : List Recipe) (b : Recipe) :
    b ∈ insert_by_rating_desc x l ↔ b ∈ x :: l := by
  induction l with
  | nil => simp [insert_by_rating_desc]
  | cons y ys ih =>
    simp only [insert_by_rating_desc]
    by_cases hxy : rating_of y ≤ rating_of x
    · rw [if_pos hxy]
    · rw [if_neg hxy]
      simp only [List.mem_cons, ih]
      tauto

theorem insert_asc_sorted (x : Recipe) (l : List Recipe)
    (h : l.Pairwise (fun a b => rating_of a ≤ rating_of b)) :
    (insert_by_rating_asc x l).Pairwise (fun a b => rating_of a ≤ rating_of b) := by
  induction l with
  | nil => simp [insert_by_rating_asc]
  | cons y ys ih =>
    rcases List.pairwise_cons.mp h with ⟨hy, hys⟩
    simp only [insert_by_rating_asc]
    by_cases hxy : rating_of x ≤ rating_of y
    · rw [if_pos hxy]
      refine List.pairwise_cons.mpr ⟨?_, h⟩
      intro b hb
      rcases List.mem_cons.mp hb with rfl | hmem
      · exact hxy
      · exact le_trans hxy (hy b hmem)
    · rw [if_neg hxy]
      refine List.pairwise_cons.mpr ⟨?_, ih hys⟩
      intro b hb
      rcases List.mem_cons.mp ((insert_asc_mem x ys b).mp hb) with rfl | hmem
      · omega
      · exact hy b hmem

theorem insert_desc_sorted (x : Recipe) (l : List Recipe)
    (h : l.Pairwise (fun a b => rating_of b ≤ rating_of a)) :
    (insert_by_rating_desc x l).Pairwise (fun a b => rating_of b ≤ rating_of a) := by
  induction l with
  | nil => simp [insert_by_rating_desc]
  | cons y ys ih =>
    rcases List.pairwise_cons.mp h with ⟨hy, hys⟩
    simp only [insert_by_rating_desc]
    by_cases hxy : rating_of y ≤ rating_of x
    · rw [if_pos hxy]
      refine List.pairwise_cons.mpr ⟨?_, h⟩
      intro b hb
      rcases List.mem_cons.mp hb with rfl | hmem
      · exact hxy
      · exact le_trans (hy b hmem) hxy
    · rw [if_neg hxy]
      refine List.pairwise_cons.mpr ⟨?_, ih hys⟩
      intro b hb
      rcases List.mem_cons.mp ((insert_desc_mem x ys b).mp hb) with rfl | hmem
      · omega
      · exact hy b hmem

theorem sort_rating_asc_sorted (l : List Recipe) :
    (sort_rating_asc l).Pairwise (fun a b => rating_of a ≤ rating_of b) := by
  induction l with
  | nil => simp [sort_rating_asc]
  | cons x xs ih => exact insert_asc_sorted x _ ih

theorem sort_rating_desc_sorted (l : List Recipe) :
    (sort_rating_desc l).Pairwise (fun a b => rating_of b ≤ rating_of a) := by
  induction l with
  | nil => simp [sort_rating_desc]
  | cons x xs ih => exact insert_desc_sorted x _ ih

end SortStability

/-- C7: the two rating sorts are genuine sorts (non-increasing resp.
non-decreasing in `rating`) and stable — for every rating value the records
carrying it appear in their original storage order — while the insertion-order
sorts return the list unchanged (oldest first) or exactly reversed (newest
first). -/
theorem C7_sort_orders :
    (∀ (l : List Recipe) (v : Nat),
        (apply_sort SortOrder.ratingHigh l).filter (fun r => decide (rating_of r = v)) =
          l.filter (fun r => decide (rating_of r = v)))
  ∧ (∀ (l : List Recipe) (v : Nat),
        (apply_sort SortOrder.ratingLow l).filter (fun r => decide (rating_of r = v)) =
          l.filter (fun r => decide (rating_of r = v)))
  ∧ (∀ l : List Recipe,
        (apply_sort SortOrder.ratingHigh l).Pairwise
          (fun a b => rating_of b ≤ rating_of a))
  ∧ (∀ l : List Recipe,
        (apply_sort SortOrder.ratingLow l).Pairwise
          (fun a b => rating_of a ≤ rating_of b))
  ∧ (∀ l : List Recipe, apply_sort SortOrder.oldestFirst l = l)
  ∧ (∀ l : List Recipe, apply_sort SortOrder.newestFirst l = l.reverse) :=
  ⟨fun l v => sort_rating_desc_stable v l,
   fun l v => sort_rating_asc_stable v l,
   fun l => sort_rating_desc_sorted l,
   fun l => sort_rating_asc_sorted l,
   fun _ => rfl,
   fun _ => rfl⟩

/-- C8: `add_folder` rejects (returns `false`, no change, no save) an empty
name or one already present under exact case-sensitive comparison; otherwise
it appends the name at the end of the folder list, saves, and returns
`true`. -/
theorem C8_add_folder :
    (∀ (d : Document) (name : String), name = "" ∨ name ∈ d.folders →
        add_folder d name = (d, false, false))
  ∧ (∀ (d : Document) (name : String), name ≠ "" → name ∉ d.folders →
        add_folder d name =
          ({ d with folders := d.folders ++ [name] }, true, true)) := by
  constructor
  · intro d name h
    have : ¬ (name ≠ "" ∧ name ∉ d.folders) := by
      rcases h with h | h <;> simp [h]
    simp [add_folder, this]
  · intro d name h1 h2
    simp [add_folder, h1, h2]

/-- Witness for C8: rejection of an empty name and of a duplicate, acceptance
of a fresh name. -/
theorem C8_add_folder_witness :
    add_folder { folders := ["和食"], recipes := [] } "" =
      ({ folders := ["和食"], recipes := [] }, false, false) ∧
    add_folder { folders := ["和食"], recipes := [] } "和食" =
      ({ folders := ["和食"], recipes := [] }, false, false) ∧
    add_folder { folders := ["和食"], recipes := [] } "スイーツ" =
      ({ folders := ["和食", "スイーツ"], recipes := [] }, true, true) :=
  ⟨C8_add_folder.1 _ "" (Or.inl rfl),
   C8_add_folder.1 _ "和食" (Or.inr (by decide)),
   C8_add_folder.2 _ "スイーツ" (by decide) (by decide)⟩

/-- C9 counterexample: `add_recipe` stores a component row with an empty name
verbatim — the repository performs no filtering, so the claimed "no stored
record contains a component or attribute row with an empty or null name even
when the caller passes such rows" is false. -/
theorem C9_repository_filter_counterexample :
    ((add_recipe { folders := DEFAULT_FOLDERS, recipes := [] } "豚汁" "和食"
        [⟨"", "200g"⟩] [] [⟨"煮る"⟩] 0 "id-1").1.recipes.any
      (fun r => has_empty_name_row r.ingredients)) = true := by
  decide

/-- C9 (amended): the repository itself does not filter component or attribute
rows — `add_recipe` and `update_recipe` store the supplied row lists verbatim
(so an empty-name row passed by a caller is stored).  The filtering happens in
the caller: the form-submission code keeps only rows with a non-empty name
(`clean_rows`), whose output never contains an empty or null name. -/
theorem C9_rows_stored_verbatim :
    (∀ (d : Document) (title folder : String) (ing sea : List Row)
        (stp : List StepRow) (rating : Nat) (new_id : String),
        (add_recipe d title folder ing sea stp rating new_id).1.recipes.map
            Recipe.ingredients =
          d.recipes.map Recipe.ingredients ++ [PairField.rows ing] ∧
        (add_recipe d title folder ing sea stp rating new_id).1.recipes.map
            Recipe.seasonings =
          d.recipes.map Recipe.seasonings ++ [PairField.rows sea])
  ∧ (∀ (folders : List String) (pre post : List Recipe) (r : Recipe)
        (recipe_id title folder : String) (ing sea : List Row)
        (stp : List StepRow) (rating : Nat),
        r.id = recipe_id → (∀ r' ∈ pre, r'.id ≠ recipe_id) →
        (update_recipe ⟨folders, pre ++ r :: post⟩ recipe_id title folder ing sea stp
            rating).1.recipes =
          pre ++
            { id := recipe_id, title := title, folder := folder,
              ingredients := PairField.rows ing, seasonings := PairField.rows sea,
              steps := StepsField.rows stp, rating := some rating,
              logs := r.logs } :: post)
  ∧ (∀ (l : List Row), ∀ row ∈ clean_rows l, row.name ≠ "") := by
  refine ⟨?_, ?_, ?_⟩
  · intro d title folder ing sea stp rating new_id
    simp [add_recipe]
  · intro folders pre post r recipe_id title folder ing sea stp rating hid hpre
    simp only [update_recipe]
    rw [update_recipe_list_found recipe_id title folder ing sea stp rating pre post r
      hid hpre]
  · intro l row hrow
    rcases List.mem_filter.mp hrow with ⟨-, hname⟩
    simpa using hname

/-- Witness for C9 (amended) on a concrete store and caller input. -/
theorem C9_rows_stored_verbatim_witness :
    (add_recipe { folders := DEFAULT_FOLDERS, recipes := [] } "豚汁" "和食"
        [⟨"", "200g"⟩] [] [⟨"煮る"⟩] 0 "id-1").1.recipes.map Recipe.ingredients =
      [PairField.rows [⟨"", "200g"⟩]] ∧
    (update_recipe ⟨["和食"],
        [] ++ { id := "id-1", title := "豚汁", folder := "和食",
                ingredients := PairField.rows [], seasonings := PairField.rows [],
                steps := StepsField.rows [⟨"煮る"⟩], rating := some 0,
                logs := [] } :: []⟩
        "id-1" "豚汁" "和食" [⟨"", "1個"⟩] [] [⟨"煮る"⟩] 0).1.recipes =
      [] ++ { id := "id-1", title := "豚汁", folder := "和食",
              ingredients := PairField.rows [⟨"", "1個"⟩],
              seasonings := PairField.rows [],
              steps := StepsField.rows [⟨"煮る"⟩], rating := some 0,
              logs := [] } :: [] ∧
    ∀ row ∈ clean_rows [⟨"", "200g"⟩, ⟨"豚肉", "200g"⟩], row.name ≠ "" :=
  ⟨(C9_rows_stored_verbatim.1 _ "豚汁" "和食" [⟨"", "200g"⟩] [] [⟨"煮る"⟩] 0 "id-1").1,
   C9_rows_stored_verbatim.2.1 ["和食"] [] [] _ "id-1" "豚汁" "和食" [⟨"", "1個"⟩] []
     [⟨"煮る"⟩] 0 rfl (by simp),
   C9_rows_stored_verbatim.2.2 [⟨"", "200g"⟩, ⟨"豚肉", "200g"⟩]⟩

/-- Removing the records of one id does not change the multiplicity of any
record of a different id. -/
theorem filter_ne_id_count (recipe_id : String) (r : Recipe) (hne : r.id ≠ recipe_id)
    (l : List Recipe) :
    (l.filter (fun x => x.id != recipe_id)).count r = l.count r := by
  induction l with
  | nil => rfl
  | cons x xs ih =>
    rw [List.filter_cons]
    by_cases hx : x.id = recipe_id
    · rw [if_neg (by simp [hx])]
      rw [ih, List.count_cons]
      have hrx : ¬ x = r := fun he => hne (he ▸ hx)
      simp [hrx]
    · rw [if_pos (by simp [hx])]
      rw [List.count_cons, List.count_cons, ih]

/-- C10: `delete_recipe` removes every record whose id equals the given id,
keeps all other records (their multiplicity included) in their original
relative order, leaves the list unchanged when nothing matches, and always
saves. -/
theorem C10_delete_recipe :
    (∀ (d : Document) (recipe_id : String),
        ∀ r ∈ (delete_recipe d recipe_id).1.recipes, r.id ≠ recipe_id)
  ∧ (∀ (d : Document) (recipe_id : String),
        (delete_recipe d recipe_id).1.recipes.Sublist d.recipes)
  ∧ (∀ (d : Document) (recipe_id : String) (r : Recipe), r.id ≠ recipe_id →
        (delete_recipe d recipe_id).1.recipes.count r = d.recipes.count r)
  ∧ (∀ (d : Document) (recipe_id : String),
        (∀ r ∈ d.recipes, r.id ≠ recipe_id) →
        (delete_recipe d recipe_id).1.recipes = d.recipes)
  ∧ (∀ (d : Document) (recipe_id : String), (delete_recipe d recipe_id).2 = true) := by
  refine ⟨?_, ?_, ?_, ?_, fun d recipe_id => rfl⟩
  · intro d recipe_id r hr
    rcases List.mem_filter.mp hr with ⟨-, hid⟩
    simpa using hid
  · intro d recipe_id
    exact List.filter_sublist _
  · intro d recipe_id r hne
    exact filter_ne_id_count recipe_id r hne d.recipes
  · intro d recipe_id h
    apply List.filter_eq_self.mpr
    intro r hr
    simpa using h r hr

/-- Witness for C10: deleting a present id (with a duplicate) and a missing
id. -/
theorem C10_delete_recipe_witness :
    ((delete_recipe
        ⟨["和食"],
          [{ id := "a", title := "x", folder := "和食",
             ingredients := PairField.rows [], seasonings := PairField.rows [],
             steps := StepsField.rows [], rating := some 0, logs := [] },
           { id := "b", title := "y", folder := "和食",
             ingredients := PairField.rows [], seasonings := PairField.rows [],
             steps := StepsField.rows [], rating := some 1, logs := [] },
           { id := "a", title := "z", folder := "和食",
             ingredients := PairField.rows [], seasonings := PairField.rows [],
             steps := StepsField.rows [], rating := some 2, logs := [] }]⟩
        "a").1.recipes.map Recipe.id = ["b"]) ∧
    (({ id := "b", title := "y", folder := "和食",
        ingredients := PairField.rows [], seasonings := PairField.rows [],
        steps := StepsField.rows [], rating := some 1, logs := [] } : Recipe).id ≠ "a") ∧
    (delete_recipe
        ⟨["和食"],
          [{ id := "b", title := "y", folder := "和食",
             ingredients := PairField.rows [], seasonings := PairField.rows [],
             steps := StepsField.rows [], rating := some 1, logs := [] }]⟩
        "a").1.recipes =
      [{ id := "b", title := "y", folder := "和食",
         ingredients := PairField.rows [], seasonings := PairField.rows [],
         steps := StepsField.rows [], rating := some 1, logs := [] }] :=
  ⟨by decide,
   by decide,
   C10_delete_recipe.2.2.2.1 _ "a" (by decide)⟩
